import Mathlib

/-!
Verification of the sampling driver `scripts/txt2img_fork.py`.

The development shallowly embeds the schedule construction, sigma
quantization, classifier-free-guidance denoiser, configuration checks,
initial-noise handling and safety-check step of the script.  Tensors are
modelled as lists over the reals (the batch dimension is the list
dimension); the external noise predictor is an arbitrary function
parameter.  Components that live in the k-diffusion fork rather than in
this repository (the Karras schedule builder, the Euler integrator, the
seeded random stream) are modelled from the specification and marked as
such in their doc comments.
-/

namespace Txt2Img

/-- Modelled from the spec: the ramp of the Karras power curve built by
`get_sigmas_karras` (k-diffusion fork, not in this repository's sources):
for index `i` out of `n`, the interpolant
`sigma_max^(1/rho) + i/(n-1) * (sigma_min^(1/rho) - sigma_max^(1/rho))`. -/
noncomputable def karrasRamp (n : ℕ) (sigma_min sigma_max rho : ℝ) (i : ℕ) : ℝ :=
  sigma_max ^ (1 / rho) + ((i : ℝ) / ((n : ℝ) - 1)) * (sigma_min ^ (1 / rho) - sigma_max ^ (1 / rho))

/-- Modelled from the spec: level `i` of the Karras schedule, the ramp value
raised to the power `rho`. -/
noncomputable def karrasLevel (n : ℕ) (sigma_min sigma_max rho : ℝ) (i : ℕ) : ℝ :=
  karrasRamp n sigma_min sigma_max rho i ^ rho

/-- Modelled from the spec: `get_sigmas_karras` of the k-diffusion fork,
as invoked at line 376 of `txt2img_fork.py` with `concat_zero=False`:
`n` power-curve levels and no trailing zero. -/
noncomputable def get_sigmas_karras (n : ℕ) (sigma_min sigma_max rho : ℝ) : List ℝ :=
  (List.range n).map (karrasLevel n sigma_min sigma_max rho)

lemma get_sigmas_karras_length (n : ℕ) (sigma_min sigma_max rho : ℝ) :
    (get_sigmas_karras n sigma_min sigma_max rho).length = n := by
  simp [get_sigmas_karras]

lemma get_sigmas_karras_getElem? (n i : ℕ) (sigma_min sigma_max rho : ℝ) (hi : i < n) :
    (get_sigmas_karras n sigma_min sigma_max rho)[i]?
      = some (karrasLevel n sigma_min sigma_max rho i) := by
  simp [get_sigmas_karras, List.getElem?_range hi]

lemma rpow_one_div_rpow (x rho : ℝ) (hx : 0 < x) (hrho : rho ≠ 0) :
    (x ^ (1 / rho)) ^ rho = x := by
  rw [← Real.rpow_mul hx.le, one_div, inv_mul_cancel₀ hrho, Real.rpow_one]

lemma karras_denom_cast (steps : ℕ) : ((steps + 1 : ℕ) : ℝ) - 1 = (steps : ℝ) := by
  push_cast
  ring

lemma karrasRamp_zero (steps : ℕ) (sigma_min sigma_max rho : ℝ) :
    karrasRamp (steps + 1) sigma_min sigma_max rho 0 = sigma_max ^ (1 / rho) := by
  simp [karrasRamp]

lemma karrasRamp_last (steps : ℕ) (sigma_min sigma_max rho : ℝ) (hsteps : 1 ≤ steps) :
    karrasRamp (steps + 1) sigma_min sigma_max rho steps = sigma_min ^ (1 / rho) := by
  have hs : (steps : ℝ) ≠ 0 := Nat.cast_ne_zero.mpr (by omega)
  unfold karrasRamp
  rw [karras_denom_cast, div_self hs]
  ring

lemma karrasRamp_strictAnti (steps : ℕ) (sigma_min sigma_max rho : ℝ)
    (hsteps : 1 ≤ steps) (h0 : 0 < sigma_min) (hlt : sigma_min < sigma_max) (hrho : 0 < rho)
    (i j : ℕ) (hij : i < j) (hj : j ≤ steps) :
    karrasRamp (steps + 1) sigma_min sigma_max rho j
      < karrasRamp (steps + 1) sigma_min sigma_max rho i := by
  have hmr : sigma_min ^ (1 / rho) < sigma_max ^ (1 / rho) :=
    Real.rpow_lt_rpow h0.le hlt (by positivity)
  have hden : (0 : ℝ) < (steps : ℝ) := by
    exact_mod_cast Nat.pos_of_ne_zero (by omega)
  have hfrac : (i : ℝ) / (steps : ℝ) < (j : ℝ) / (steps : ℝ) :=
    (div_lt_div_iff_of_pos_right hden).mpr (by exact_mod_cast hij)
  unfold karrasRamp
  rw [karras_denom_cast]
  have hneg : sigma_min ^ (1 / rho) - sigma_max ^ (1 / rho) < 0 := by linarith
  nlinarith [mul_lt_mul_of_neg_right hfrac hneg]

lemma karrasRamp_lower (steps : ℕ) (sigma_min sigma_max rho : ℝ)
    (hsteps : 1 ≤ steps) (h0 : 0 < sigma_min) (hlt : sigma_min < sigma_max) (hrho : 0 < rho)
    (j : ℕ) (hj : j ≤ steps) :
    sigma_min ^ (1 / rho) ≤ karrasRamp (steps + 1) sigma_min sigma_max rho j := by
  have hmr : sigma_min ^ (1 / rho) ≤ sigma_max ^ (1 / rho) :=
    Real.rpow_le_rpow h0.le hlt.le (by positivity)
  have hden : (0 : ℝ) < (steps : ℝ) := by
    exact_mod_cast Nat.pos_of_ne_zero (by omega)
  have ht1 : (j : ℝ) / (steps : ℝ) ≤ 1 := (div_le_one hden).mpr (by exact_mod_cast hj)
  have ht0 : 0 ≤ (j : ℝ) / (steps : ℝ) := by positivity
  have key : karrasRamp (steps + 1) sigma_min sigma_max rho j - sigma_min ^ (1 / rho)
      = (1 - (j : ℝ) / (steps : ℝ)) * (sigma_max ^ (1 / rho) - sigma_min ^ (1 / rho)) := by
    unfold karrasRamp
    rw [karras_denom_cast]
    ring
  nlinarith [mul_nonneg (by linarith : (0:ℝ) ≤ 1 - (j : ℝ) / (steps : ℝ))
    (by linarith : (0:ℝ) ≤ sigma_max ^ (1 / rho) - sigma_min ^ (1 / rho))]

lemma karrasRamp_pos (steps : ℕ) (sigma_min sigma_max rho : ℝ)
    (hsteps : 1 ≤ steps) (h0 : 0 < sigma_min) (hlt : sigma_min < sigma_max) (hrho : 0 < rho)
    (j : ℕ) (hj : j ≤ steps) :
    0 < karrasRamp (steps + 1) sigma_min sigma_max rho j :=
  lt_of_lt_of_le (Real.rpow_pos_of_pos h0 (1 / rho))
    (karrasRamp_lower steps sigma_min sigma_max rho hsteps h0 hlt hrho j hj)

lemma karrasLevel_zero (steps : ℕ) (sigma_min sigma_max rho : ℝ)
    (h0 : 0 < sigma_min) (hlt : sigma_min < sigma_max) (hrho : 0 < rho) :
    karrasLevel (steps + 1) sigma_min sigma_max rho 0 = sigma_max := by
  unfold karrasLevel
  rw [karrasRamp_zero, rpow_one_div_rpow sigma_max rho (h0.trans hlt) hrho.ne']

lemma karrasLevel_last (steps : ℕ) (sigma_min sigma_max rho : ℝ)
    (hsteps : 1 ≤ steps) (h0 : 0 < sigma_min) (hrho : 0 < rho) :
    karrasLevel (steps + 1) sigma_min sigma_max rho steps = sigma_min := by
  unfold karrasLevel
  rw [karrasRamp_last steps sigma_min sigma_max rho hsteps,
    rpow_one_div_rpow sigma_min rho h0 hrho.ne']

lemma karrasLevel_strictAnti (steps : ℕ) (sigma_min sigma_max rho : ℝ)
    (hsteps : 1 ≤ steps) (h0 : 0 < sigma_min) (hlt : sigma_min < sigma_max) (hrho : 0 < rho)
    (i j : ℕ) (hij : i < j) (hj : j ≤ steps) :
    karrasLevel (steps + 1) sigma_min sigma_max rho j
      < karrasLevel (steps + 1) sigma_min sigma_max rho i := by
  unfold karrasLevel
  exact Real.rpow_lt_rpow
    (karrasRamp_pos steps sigma_min sigma_max rho hsteps h0 hlt hrho j hj).le
    (karrasRamp_strictAnti steps sigma_min sigma_max rho hsteps h0 hlt hrho i j hij hj) hrho

/-- C1: for every step count `steps ≥ 1` and valid `(sigma_min, sigma_max, rho)`,
the Karras schedule built for the sampling run with count `n = steps + 1` and no
trailing zero has length `n`, is strictly decreasing, starts at `sigma_max`,
ends at `sigma_min` (which is not zero), and its `i`-th level is
`(sigma_max^(1/rho) + i/(n-1) * (sigma_min^(1/rho) - sigma_max^(1/rho)))^rho`. -/
theorem karras_schedule_for_run (steps : ℕ) (sigma_min sigma_max rho : ℝ)
    (hsteps : 1 ≤ steps) (h0 : 0 < sigma_min) (hlt : sigma_min < sigma_max) (hrho : 0 < rho) :
    (get_sigmas_karras (steps + 1) sigma_min sigma_max rho).length = steps + 1 ∧
    (∀ i j : ℕ, i < j → j < steps + 1 →
      karrasLevel (steps + 1) sigma_min sigma_max rho j
        < karrasLevel (steps + 1) sigma_min sigma_max rho i) ∧
    (get_sigmas_karras (steps + 1) sigma_min sigma_max rho).head? = some sigma_max ∧
    (get_sigmas_karras (steps + 1) sigma_min sigma_max rho).getLast? = some sigma_min ∧
    sigma_min ≠ 0 ∧
    (∀ i : ℕ, i < steps + 1 →
      (get_sigmas_karras (steps + 1) sigma_min sigma_max rho)[i]?
        = some ((sigma_max ^ (1 / rho)
            + ((i : ℝ) / (((steps + 1 : ℕ) : ℝ) - 1))
              * (sigma_min ^ (1 / rho) - sigma_max ^ (1 / rho))) ^ rho)) := by
  refine ⟨get_sigmas_karras_length _ _ _ _, ?_, ?_, ?_, h0.ne', ?_⟩
  · intro i j hij hj
    exact karrasLevel_strictAnti steps sigma_min sigma_max rho hsteps h0 hlt hrho i j hij
      (Nat.lt_succ_iff.mp hj)
  · rw [List.head?_eq_getElem?,
      get_sigmas_karras_getElem? (steps + 1) 0 sigma_min sigma_max rho (by omega),
      karrasLevel_zero steps sigma_min sigma_max rho h0 hlt hrho]
  · rw [List.getLast?_eq_getElem?, get_sigmas_karras_length]
    have hidx : steps + 1 - 1 = steps := by omega
    rw [hidx, get_sigmas_karras_getElem? (steps + 1) steps sigma_min sigma_max rho (by omega),
      karrasLevel_last steps sigma_min sigma_max rho hsteps h0 hrho]
  · intro i hi
    rw [get_sigmas_karras_getElem? (steps + 1) i sigma_min sigma_max rho hi]
    rfl

/-- Witness for C1 at `steps = 1`, `sigma_min = 1`, `sigma_max = 2`, `rho = 1`. -/
theorem karras_schedule_for_run_w :
    (get_sigmas_karras (1 + 1) 1 2 1).length = 1 + 1 ∧
    (∀ i j : ℕ, i < j → j < 1 + 1 →
      karrasLevel (1 + 1) 1 2 1 j < karrasLevel (1 + 1) 1 2 1 i) ∧
    (get_sigmas_karras (1 + 1) 1 2 1).head? = some 2 ∧
    (get_sigmas_karras (1 + 1) 1 2 1).getLast? = some 1 ∧
    (1 : ℝ) ≠ 0 ∧
    (∀ i : ℕ, i < 1 + 1 →
      (get_sigmas_karras (1 + 1) 1 2 1)[i]?
        = some (((2:ℝ) ^ (1 / (1:ℝ))
            + ((i : ℝ) / (((1 + 1 : ℕ) : ℝ) - 1))
              * ((1:ℝ) ^ (1 / (1:ℝ)) - (2:ℝ) ^ (1 / (1:ℝ)))) ^ (1:ℝ))) :=
  karras_schedule_for_run 1 1 2 1 (le_refl 1) (by norm_num) (by norm_num) (by norm_num)

/-- Sampler names from the Karras et al paper (`txt2img_fork.py` line 34). -/
def KARRAS_SAMPLERS : List String := ["heun", "euler", "dpm2"]

/-- All k-diffusion sampler names (`txt2img_fork.py` line 35). -/
def K_DIFF_SAMPLERS : List String :=
  KARRAS_SAMPLERS ++ ["k_lms", "dpm2_ancestral", "euler_ancestral"]

/-- Sampler names handled by the DDIM/PLMS branch (`txt2img_fork.py` line 36). -/
def NOT_K_DIFF_SAMPLERS : List String := ["ddim", "plms"]

/-- All sampler names accepted by the argument parser (`txt2img_fork.py` line 37). -/
def VALID_SAMPLERS : List String := K_DIFF_SAMPLERS ++ NOT_K_DIFF_SAMPLERS

/-- `torch.bucketize(v, boundaries)` with `right=False` (`txt2img_fork.py`
lines 397 and 399): the number of boundary entries strictly below `v`, which
for an ascending table is the index `i` with `boundaries[i-1] < v ≤ boundaries[i]`. -/
def bucketize {β : Type} [LinearOrder β] (boundaries : List β) (v : β) : ℕ :=
  boundaries.countP (fun b => decide (b < v))

/-- The table index used by the quantization step (`txt2img_fork.py` line 400):
the bucketize result clamped into `[0, length-1]`; the lower clamp is implicit
in the natural-number type. -/
def sigma_index {β : Type} [LinearOrder β] (table : List β) (v : β) : ℕ :=
  min (bucketize table v) (table.length - 1)

/-- Quantization of one continuous sigma onto the discrete table
(`txt2img_fork.py` line 400): index the table at the clamped bucketize index. -/
def quantizeSigma {β : Type} [LinearOrder β] [Inhabited β] (table : List β) (v : β) : β :=
  table.getD (sigma_index table v) default

/-- The arguments of one `sampling_fn` invocation prepared by the k-diffusion
branch of `main`: the sigma schedule, the optional `quanta` keyword argument,
and the number of best-effort warnings printed while preparing them. -/
structure SchedulePrep where
  sigmas : List ℝ
  quanta : Option (List ℝ)
  warnings : ℕ

/-- Schedule preparation of the k-diffusion branch (`txt2img_fork.py`
lines 372-402): with `--karras`, build the power-curve schedule with count
`steps+1` from the first and last entries of the model's discrete sigma table;
samplers in `KARRAS_SAMPLERS` additionally receive the table as `quanta`,
all other samplers receive the schedule quantized onto the table after one
warning print.  Without `--karras` the native schedule is used (its
construction lives in the k-diffusion library and is taken here as the
argument `native`).  The MPS device branch at lines 393-399 computes the same
bucketize result on the CPU and is not distinguished. -/
noncomputable def prepareSchedule (native : List ℝ) (sampler : String) (karras : Bool)
    (steps : ℕ) (modelSigmas : List ℝ) : SchedulePrep :=
  if karras then
    let sigmas := get_sigmas_karras (steps + 1) (modelSigmas.headD 0) (modelSigmas.getLastD 0) 7
    if sampler ∈ KARRAS_SAMPLERS then
      ⟨sigmas, some modelSigmas, 0⟩
    else
      ⟨sigmas.map (quantizeSigma modelSigmas), none, 1⟩
  else
    ⟨native, none, 0⟩

/-- Warnings printed over the whole process run: `main` iterates
`for n in trange(opt.n_iter)` and `for prompts in tqdm(data)`
(`txt2img_fork.py` lines 336-338) and prepares the schedule afresh in
every inner iteration. -/
noncomputable def loopWarningTotal (n_iter n_batches : ℕ) (native : List ℝ) (sampler : String)
    (karras : Bool) (steps : ℕ) (modelSigmas : List ℝ) : ℕ :=
  ((List.range n_iter).map fun _ =>
    ((List.range n_batches).map fun _ =>
      (prepareSchedule native sampler karras steps modelSigmas).warnings).sum).sum

lemma sum_map_const_range (n c : ℕ) : ((List.range n).map fun _ => c).sum = n * c := by
  induction n with
  | zero => simp
  | succ k ih =>
    rw [List.range_succ, List.map_append, List.sum_append, ih]
    simp [Nat.succ_mul]

/-- C3: for every query sigma and any non-empty discrete table, the clamped
bucketize index stays inside `[0, length-1]` and the quantized value is an
entry of the table. -/
theorem sigma_quantizer_safe {β : Type} [LinearOrder β] [Inhabited β]
    (table : List β) (v : β) (h : table ≠ []) :
    sigma_index table v < table.length ∧ quantizeSigma table v ∈ table := by
  have hlen : 0 < table.length := List.length_pos.mpr h
  have hidx : sigma_index table v < table.length := by
    have hle : sigma_index table v ≤ table.length - 1 := min_le_right _ _
    omega
  refine ⟨hidx, ?_⟩
  rw [quantizeSigma, List.getD_eq_getElem?_getD, List.getElem?_eq_getElem hidx]
  exact List.getElem_mem hidx

/-- Witness for C3 on the two-entry table `[1, 2]` and the out-of-range query `5`. -/
theorem sigma_quantizer_safe_w :
    sigma_index ([1, 2] : List ℚ) 5 < ([1, 2] : List ℚ).length ∧
    quantizeSigma ([1, 2] : List ℚ) 5 ∈ ([1, 2] : List ℚ) :=
  sigma_quantizer_safe [1, 2] 5 (by simp)

/-- C2: with `--karras`, a sampler in the discretization-aware set receives the
continuous power-curve schedule together with the model table as `quanta`,
while any other k-diffusion sampler receives the quantized schedule and no
`quanta` argument. -/
theorem karras_quanta_dispatch (sampler : String) (steps : ℕ) (ms native : List ℝ) :
    (sampler ∈ KARRAS_SAMPLERS →
      prepareSchedule native sampler true steps ms
        = ⟨get_sigmas_karras (steps + 1) (ms.headD 0) (ms.getLastD 0) 7, some ms, 0⟩) ∧
    (sampler ∈ K_DIFF_SAMPLERS → sampler ∉ KARRAS_SAMPLERS →
      prepareSchedule native sampler true steps ms
        = ⟨(get_sigmas_karras (steps + 1) (ms.headD 0) (ms.getLastD 0) 7).map
              (quantizeSigma ms),
            none, 1⟩) := by
  constructor
  · intro h
    simp [prepareSchedule, h]
  · intro _ h
    simp [prepareSchedule, h]

/-- Witness for C2 with the discretization-aware sampler `heun` and the
k-diffusion sampler `k_lms`, on the table `[1, 2]` with one step. -/
theorem karras_quanta_dispatch_w :
    prepareSchedule [] "heun" true 1 [1, 2]
      = ⟨get_sigmas_karras (1 + 1) (([1, 2] : List ℝ).headD 0) (([1, 2] : List ℝ).getLastD 0) 7,
          some [1, 2], 0⟩ ∧
    prepareSchedule [] "k_lms" true 1 [1, 2]
      = ⟨(get_sigmas_karras (1 + 1) (([1, 2] : List ℝ).headD 0)
            (([1, 2] : List ℝ).getLastD 0) 7).map (quantizeSigma [1, 2]),
          none, 1⟩ :=
  ⟨(karras_quanta_dispatch "heun" 1 [1, 2] []).1 (by decide),
   (karras_quanta_dispatch "k_lms" 1 [1, 2] []).2 (by decide) (by decide)⟩

/-- C7: each sampling run that requests the Karras schedule with a k-diffusion
sampler outside the discretization-aware set emits exactly one warning and
still receives a full-length (`steps + 1`) schedule; over the whole process
the warning is therefore printed once per sampling run, that is
`n_iter * n_batches` times. -/
theorem karras_warning_once_per_run (sampler : String) (steps n_iter n_batches : ℕ)
    (ms native : List ℝ) (h1 : sampler ∈ K_DIFF_SAMPLERS) (h2 : sampler ∉ KARRAS_SAMPLERS) :
    (prepareSchedule native sampler true steps ms).warnings = 1 ∧
    (prepareSchedule native sampler true steps ms).sigmas.length = steps + 1 ∧
    loopWarningTotal n_iter n_batches native sampler true steps ms = n_iter * n_batches := by
  have hp : prepareSchedule native sampler true steps ms
      = ⟨(get_sigmas_karras (steps + 1) (ms.headD 0) (ms.getLastD 0) 7).map
            (quantizeSigma ms),
          none, 1⟩ := by
    simp [prepareSchedule, h2]
  refine ⟨by rw [hp], ?_, ?_⟩
  · rw [hp]
    simp [get_sigmas_karras_length]
  · unfold loopWarningTotal
    simp only [hp, sum_map_const_range]
    ring

/-- Witness for C7 with sampler `k_lms`, one step, two outer iterations and
one prompt batch. -/
theorem karras_warning_once_per_run_w :
    (prepareSchedule [] "k_lms" true 1 [1, 2]).warnings = 1 ∧
    (prepareSchedule [] "k_lms" true 1 [1, 2]).sigmas.length = 1 + 1 ∧
    loopWarningTotal 2 1 [] "k_lms" true 1 [1, 2] = 2 * 1 :=
  karras_warning_once_per_run "k_lms" 1 2 1 [1, 2] [] (by decide) (by decide)

/-- `tensor.chunk(2)` along the batch dimension (`txt2img_fork.py` line 48):
the first chunk gets the upper half (rounded up), the second the rest. -/
def chunk2 {α : Type} (l : List α) : List α × List α :=
  (l.take ((l.length + 1) / 2), l.drop ((l.length + 1) / 2))

lemma chunk2_append_eq {α : Type} (A B : List α) (h : A.length = B.length) :
    chunk2 (A ++ B) = (A, B) := by
  unfold chunk2
  have hhalf : ((A ++ B).length + 1) / 2 = A.length := by
    rw [List.length_append, h]
    omega
  rw [hhalf]
  exact Prod.ext (List.take_left A B) (List.drop_left A B)

namespace KCFGDenoiser

/-- `KCFGDenoiser.forward` (`txt2img_fork.py` lines 44-49): duplicate `x` and
`sigma` along the batch dimension, concatenate the unconditional and
conditional embeddings, evaluate the inner model once on the combined batch,
chunk the result in two and combine as `uncond + (cond - uncond) * cond_scale`.
The second component records the argument batches of every inner-model
invocation performed. -/
def forward {α γ : Type} [AddCommGroup α] [Module ℝ α]
    (inner : List α → List ℝ → List γ → List α)
    (x : List α) (sigma : List ℝ) (uncond cond : List γ) (cond_scale : ℝ) :
    List α × List (List α × List ℝ × List γ) :=
  let x_in := x ++ x
  let sigma_in := sigma ++ sigma
  let cond_in := uncond ++ cond
  let out := inner x_in sigma_in cond_in
  (List.zipWith (fun a b => a + cond_scale • (b - a)) (chunk2 out).1 (chunk2 out).2,
   [(x_in, sigma_in, cond_in)])

end KCFGDenoiser

/-- C4: the denoiser invokes the inner model exactly once, on the batch made of
the duplicated latent, the duplicated sigma and the concatenated embeddings;
its output combines the two chunks of that single result as
`uncond + g * (cond - uncond)`, and for a batch-pointwise inner model the two
chunks are exactly the unconditional and the conditional prediction. -/
theorem kcfg_forward_single_call {α γ : Type} [AddCommGroup α] [Module ℝ α]
    (inner : List α → List ℝ → List γ → List α)
    (x : List α) (sigma : List ℝ) (uncond cond : List γ) (g : ℝ) :
    (KCFGDenoiser.forward inner x sigma uncond cond g).2
      = [(x ++ x, sigma ++ sigma, uncond ++ cond)] ∧
    (KCFGDenoiser.forward inner x sigma uncond cond g).1
      = List.zipWith (fun a b => a + g • (b - a))
          (chunk2 (inner (x ++ x) (sigma ++ sigma) (uncond ++ cond))).1
          (chunk2 (inner (x ++ x) (sigma ++ sigma) (uncond ++ cond))).2 ∧
    (inner (x ++ x) (sigma ++ sigma) (uncond ++ cond)
        = inner x sigma uncond ++ inner x sigma cond →
      (inner x sigma uncond).length = (inner x sigma cond).length →
      (KCFGDenoiser.forward inner x sigma uncond cond g).1
        = List.zipWith (fun a b => a + g • (b - a))
            (inner x sigma uncond) (inner x sigma cond)) := by
  refine ⟨rfl, rfl, ?_⟩
  intro h1 h2
  show List.zipWith _ (chunk2 (inner (x ++ x) (sigma ++ sigma) (uncond ++ cond))).1
      (chunk2 (inner (x ++ x) (sigma ++ sigma) (uncond ++ cond))).2 = _
  rw [h1, chunk2_append_eq _ _ h2]

/-- Witness for C4 with the inner model returning its latent batch unchanged. -/
theorem kcfg_forward_single_call_w :
    (KCFGDenoiser.forward (fun (v : List ℝ) (_ : List ℝ) (_ : List ℝ) => v)
        [1] [2] [3] [4] 5).2
      = [([1, 1], [2, 2], [3, 4])] ∧
    (KCFGDenoiser.forward (fun (v : List ℝ) (_ : List ℝ) (_ : List ℝ) => v)
        [1] [2] [3] [4] 5).1
      = List.zipWith (fun a b => a + (5:ℝ) • (b - a)) (chunk2 ([1, 1] : List ℝ)).1
          (chunk2 ([1, 1] : List ℝ)).2 ∧
    (([1, 1] : List ℝ) = [1] ++ [1] →
      ([1] : List ℝ).length = ([1] : List ℝ).length →
      (KCFGDenoiser.forward (fun (v : List ℝ) (_ : List ℝ) (_ : List ℝ) => v)
          [1] [2] [3] [4] 5).1
        = List.zipWith (fun a b => a + (5:ℝ) • (b - a)) [1] [1]) :=
  kcfg_forward_single_call (fun v _ _ => v) [1] [2] [3] [4] 5

/-- `torch.cat([uncond, cond])` as called at `txt2img_fork.py` line 47, with
the unconditional embedding as the caller provides it: `main` leaves `uc` as
`None` when `opt.scale == 1.0` (lines 339-341), and `torch.cat` raises a
`TypeError` when handed `None`. -/
def catOpt {γ : Type} (uncond : Option (List γ)) (cond : List γ) : Except String (List γ) :=
  match uncond with
  | none => Except.error "TypeError: expected Tensor as element 0, but got NoneType"
  | some us => Except.ok (us ++ cond)

namespace KCFGDenoiser

/-- `KCFGDenoiser.forward` with the optional unconditional embedding exactly as
`main` supplies it: the concatenation fails when the caller passed `None`. -/
def forwardChecked {α γ : Type} [AddCommGroup α] [Module ℝ α]
    (inner : List α → List ℝ → List γ → List α)
    (x : List α) (sigma : List ℝ) (uncond : Option (List γ)) (cond : List γ)
    (cond_scale : ℝ) : Except String (List α) :=
  match catOpt uncond cond with
  | Except.error e => Except.error e
  | Except.ok cond_in =>
    let out := inner (x ++ x) (sigma ++ sigma) cond_in
    Except.ok (List.zipWith (fun a b => a + cond_scale • (b - a)) (chunk2 out).1 (chunk2 out).2)

end KCFGDenoiser

/-- The unconditional embedding chosen by `main` (`txt2img_fork.py`
lines 339-341): `uc` stays `None` exactly when the guidance scale is `1.0`. -/
noncomputable def callerUncond {γ : Type} (scale : ℝ) (embedEmpty : List γ) : Option (List γ) :=
  if scale ≠ 1 then some embedEmpty else none

/-- One denoiser evaluation of the k-diffusion path, with the unconditional
embedding selected by `main` for the given guidance scale. -/
noncomputable def kDiffDenoiseStep {α γ : Type} [AddCommGroup α] [Module ℝ α]
    (scale : ℝ) (embedEmpty : List γ)
    (inner : List α → List ℝ → List γ → List α)
    (x : List α) (sigma : List ℝ) (cond : List γ) : Except String (List α) :=
  KCFGDenoiser.forwardChecked inner x sigma (callerUncond scale embedEmpty) cond scale

/-- C5, failing input: at guidance scale `1.0` the caller omits the
unconditional embedding, but the k-diffusion denoiser still concatenates it,
so the evaluation fails instead of returning the conditional-only prediction;
the same denoiser at scale `1.0` with an unconditional embedding supplied
does return exactly the conditional prediction. -/
theorem cfg_scale_one_crashes :
    kDiffDenoiseStep 1 ([0] : List ℝ) (fun (v : List ℝ) (_ : List ℝ) (_ : List ℝ) => v)
        [3] [2] [4]
      = Except.error "TypeError: expected Tensor as element 0, but got NoneType" ∧
    KCFGDenoiser.forwardChecked (fun (v : List ℝ) (_ : List ℝ) (_ : List ℝ) => v)
        [3] [2] (some [9]) [4] 1
      = Except.ok [3] := by
  constructor
  · simp [kDiffDenoiseStep, callerUncond, KCFGDenoiser.forwardChecked, catOpt]
  · norm_num [KCFGDenoiser.forwardChecked, catOpt, chunk2]

/-- `start_code` creation (`txt2img_fork.py` lines 321-326): one draw from the
seeded stream when `--fixed_code` is set, `None` otherwise. -/
def mkStartCode (fixed_code : Bool) (draw : ℕ → ℝ) : Option ℝ :=
  if fixed_code then some (draw 0) else none

/-- The starting latent of one k-diffusion sampling call (`txt2img_fork.py`
line 404): `x = torch.randn([...]) * sigmas[0]`, a fresh draw from the seeded
stream on every call; `start_code` is in scope but never consulted in this
branch. -/
def kDiffInitialLatent (start_code : Option ℝ) (draw : ℕ → ℝ) (call : ℕ) (sigma0 : ℝ) : ℝ :=
  draw call * sigma0

/-- C8, failing input: with `--fixed_code` set, two successive k-diffusion
sampling calls start from different latents (the fresh draws `1` and `2` of the
stream), and the starting latent does not depend on `start_code` at all. -/
theorem fixed_code_ignored_kdiff :
    kDiffInitialLatent (mkStartCode true fun n => (n : ℝ)) (fun n => (n : ℝ)) 1 1 = 1 ∧
    kDiffInitialLatent (mkStartCode true fun n => (n : ℝ)) (fun n => (n : ℝ)) 2 1 = 2 ∧
    kDiffInitialLatent (some 99) (fun n => (n : ℝ)) 1 1
      = kDiffInitialLatent none (fun n => (n : ℝ)) 1 1 ∧
    (1 : ℝ) ≠ 2 := by
  norm_num [kDiffInitialLatent]

/-- Modelled from the spec: the Euler update rule of the SamplerEngine
(k-diffusion's `sample_euler`, not in this repository's sources) — a
first-order explicit step from each noise level to the next using only the
current derivative estimate `d`. -/
def eulerSteps {α : Type} [AddCommGroup α] [Module ℝ α] (d : α → ℝ → α) :
    List ℝ → α → α
  | [], x => x
  | [_], x => x
  | s1 :: s2 :: rest, x => eulerSteps d (s2 :: rest) (x + (s2 - s1) • d x s1)

/-- Ambient context of a process run that is unrelated to sampling: the wall
clock read for the timing printouts and the output bookkeeping of `main`. -/
structure RunAmbient where
  wallClock : ℕ
  outdir : String
  baseCount : ℕ

/-- Modelled from the spec: the sequence of initial-noise draws a process run
consumes — one draw per outer iteration from the single stream determined by
the seed (`seed_everything(opt.seed)`, `txt2img_fork.py` line 277). -/
def processRunDraws {α : Type} (stream : ℕ → ℕ → α) (seed n_iter : ℕ)
    (_amb : RunAmbient) : List α :=
  (List.range n_iter).map (stream seed)

/-- Modelled from the spec: the final latents of a process run under the Euler
rule — each outer iteration scales its fresh draw by the first noise level
(`txt2img_fork.py` line 404) and integrates over the schedule.  The ambient
context is accepted because a real run carries it, and it plays no part in the
computation. -/
def processRunLatents {α : Type} [AddCommGroup α] [Module ℝ α] (d : α → ℝ → α)
    (stream : ℕ → ℕ → α) (seed n_iter : ℕ) (sigmas : List ℝ)
    (_amb : RunAmbient) : List α :=
  (List.range n_iter).map fun i => eulerSteps d sigmas (sigmas.headD 0 • stream seed i)

/-- C9: two process runs with the same seed and the same step/schedule
configuration consume the same sequence of random draws and produce equal
final latents, whatever their ambient context (wall clock, output directory,
file counters). -/
theorem seeded_run_deterministic {α : Type} [AddCommGroup α] [Module ℝ α]
    (d : α → ℝ → α) (stream : ℕ → ℕ → α)
    (s1 s2 n1 n2 : ℕ) (sig1 sig2 : List ℝ) (a1 a2 : RunAmbient)
    (hs : s1 = s2) (hn : n1 = n2) (hsig : sig1 = sig2) :
    processRunDraws stream s1 n1 a1 = processRunDraws stream s2 n2 a2 ∧
    processRunLatents d stream s1 n1 sig1 a1 = processRunLatents d stream s2 n2 sig2 a2 := by
  subst hs
  subst hn
  subst hsig
  exact ⟨rfl, rfl⟩

/-- Witness for C9: seed 7, two iterations, schedule `[1, 0]`, two different
ambient contexts. -/
theorem seeded_run_deterministic_w :
    processRunDraws (fun s i => ((s + i : ℕ) : ℝ)) 7 2 ⟨0, "runA", 0⟩
      = processRunDraws (fun s i => ((s + i : ℕ) : ℝ)) 7 2 ⟨5, "runB", 3⟩ ∧
    processRunLatents (fun v _ => v) (fun s i => ((s + i : ℕ) : ℝ)) 7 2 [1, 0] ⟨0, "runA", 0⟩
      = processRunLatents (fun v _ => v) (fun s i => ((s + i : ℕ) : ℝ)) 7 2 [1, 0]
          ⟨5, "runB", 3⟩ :=
  seeded_run_deterministic (fun v _ => v) (fun s i => ((s + i : ℕ) : ℝ)) 7 7 2 2
    [1, 0] [1, 0] ⟨0, "runA", 0⟩ ⟨5, "runB", 3⟩ rfl rfl rfl

/-- `check_safety_poorly` (`txt2img_fork.py` lines 126-127): returns its input
unchanged together with the flag `False`. -/
def check_safety_poorly {α : Type} (images : List α) : List α × Bool := (images, false)

/-- The safety-checking step the pipeline actually invokes
(`txt2img_fork.py` line 421 calls `check_safety_poorly`, not `check_safety`). -/
def pipelineSafetyCheck {α : Type} (images : List α) : List α × Bool :=
  check_safety_poorly images

/-- C10: the safety-checking step invoked by the pipeline returns the decoded
batch completely unchanged (entry by entry) together with the flag `False`;
no image is ever replaced. -/
theorem safety_check_identity {α : Type} (batch : List α) :
    pipelineSafetyCheck batch = (batch, false) ∧
    ∀ i : ℕ, (pipelineSafetyCheck batch).1[i]? = batch[i]? :=
  ⟨rfl, fun _ => rfl⟩

/-- Configuration errors of the abstract pipeline: a sampler name outside the
accepted set, or an invalid schedule request (`InvalidScheduleError`). -/
inductive ConfigError
  | invalidSampler
  | invalidSchedule

/-- Sampler-name validation performed by the argument parser
(`txt2img_fork.py` lines 163-169, `choices=VALID_SAMPLERS`). -/
def checkSampler (sampler : String) : Except ConfigError Unit :=
  if sampler ∈ VALID_SAMPLERS then Except.ok () else Except.error ConfigError.invalidSampler

/-- Modelled from the spec: the checked NoiseSchedule constructor of
section 4.1 — the schedule builder itself lives in the k-diffusion library,
and the spec requires it to fail with `InvalidScheduleError` when `steps < 1`
or `sigma_min ≥ sigma_max`. -/
noncomputable def buildKarrasSchedule (steps : ℤ) (sigma_min sigma_max rho : ℝ) :
    Except ConfigError (List ℝ) :=
  if steps < 1 ∨ sigma_max ≤ sigma_min then Except.error ConfigError.invalidSchedule
  else Except.ok (get_sigmas_karras (steps.toNat + 1) sigma_min sigma_max rho)

/-- Modelled from the spec: a run validates its configuration — sampler name
first (argument parsing), then the schedule request — before the sampling
compute stage `sample` is reached (spec sections 3 and 7: schedules are
constructed before the sampling loop starts, and configuration errors fail
fast before any compute begins). -/
noncomputable def runPipeline (sampler : String) (steps : ℤ) (sigma_min sigma_max rho : ℝ)
    (sample : List ℝ → List ℝ) : Except ConfigError (List ℝ) :=
  match checkSampler sampler with
  | Except.error e => Except.error e
  | Except.ok _ =>
    match buildKarrasSchedule steps sigma_min sigma_max rho with
    | Except.error e => Except.error e
    | Except.ok sigmas => Except.ok (sample sigmas)

/-- C6: schedule construction fails with the invalid-schedule error when
`steps < 1` or `sigma_min ≥ sigma_max`; an invalid sampler name fails with the
invalid-sampler error; and with any invalid configuration the pipeline's
result is an error that does not depend on the sampling compute stage, so no
compute begins. -/
theorem config_fail_fast (sampler : String) (steps : ℤ) (sigma_min sigma_max rho : ℝ) :
    ((steps < 1 ∨ sigma_max ≤ sigma_min) →
      buildKarrasSchedule steps sigma_min sigma_max rho
        = Except.error ConfigError.invalidSchedule) ∧
    (sampler ∉ VALID_SAMPLERS →
      ∀ f : List ℝ → List ℝ,
        runPipeline sampler steps sigma_min sigma_max rho f
          = Except.error ConfigError.invalidSampler) ∧
    ((steps < 1 ∨ sigma_max ≤ sigma_min ∨ sampler ∉ VALID_SAMPLERS) →
      ∀ f g : List ℝ → List ℝ,
        runPipeline sampler steps sigma_min sigma_max rho f
          = runPipeline sampler steps sigma_min sigma_max rho g ∧
        ∃ e, runPipeline sampler steps sigma_min sigma_max rho f = Except.error e) := by
  refine ⟨?_, ?_, ?_⟩
  · intro hbad
    unfold buildKarrasSchedule
    rw [if_pos hbad]
  · intro hbad f
    simp [runPipeline, checkSampler, hbad]
  · intro hbad f g
    by_cases hs : sampler ∈ VALID_SAMPLERS
    · have hsched : steps < 1 ∨ sigma_max ≤ sigma_min := by tauto
      have hb : buildKarrasSchedule steps sigma_min sigma_max rho
          = Except.error ConfigError.invalidSchedule := by
        unfold buildKarrasSchedule
        rw [if_pos hsched]
      simp [runPipeline, checkSampler, hs, hb]
    · simp [runPipeline, checkSampler, hs]

/-- Witness for C6: a zero step count triggers the invalid-schedule error, and
an unknown sampler name triggers the invalid-sampler error before compute. -/
theorem config_fail_fast_w :
    buildKarrasSchedule 0 1 2 7 = Except.error ConfigError.invalidSchedule ∧
    runPipeline "foo" 5 1 2 7 id = Except.error ConfigError.invalidSampler :=
  ⟨(config_fail_fast "euler" 0 1 2 7).1 (Or.inl (by decide)),
   (config_fail_fast "foo" 5 1 2 7).2.1 (by decide) id⟩

end Txt2Img
